import Mathlib

/-
Verification of the BlackRoad digital-identity / KYC system
(src/digital_identity.py) against its natural-language specification.

Modelling conventions of the shallow embedding:
- The four SQLite tables (identities, documents, kyc_requests, audit_log)
  become four lists held in a `DB` record; INSERT appends to the end of
  the list, UPDATE maps over the list, SELECT filters/finds.
- `uuid.uuid4()` generated identifiers become naturals drawn from a
  counter `next_id` in the `DB` record (the Python ids are opaque unique
  strings; only equality on them is ever used).
- ISO-8601 timestamp strings become naturals; the only comparison the
  source performs on them (`expires_at < now` in expire_old_identities)
  is the lexicographic string order, which agrees with chronological
  order on ISO strings, so `<` on Nat is faithful.  `datetime.utcnow()`
  becomes an explicit `now : Nat` argument to each operation.
- Enum-backed TEXT columns (verification level, statuses, document type)
  are kept as the strings the source stores ("basic", "pending", ...).
- Functions that raise ValueError return `Except String`; every raise in
  the source happens before any write, which the embedding mirrors by
  returning `.error` without touching the state.
- `hashlib.sha256` is an external library call whose output is only
  stored, never inspected; create_identity therefore takes the already
  hashed value as its optional argument.
-/

namespace DI

/-- Verification levels as the strings stored in the database
(VerificationLevel enum values in the source). -/
def levelBasic : String := "basic"

def levelStandard : String := "standard"

def levelEnhanced : String := "enhanced"

def levelUnverified : String := "unverified"

/-- Document-type strings (DocType enum values in the source). -/
def docPassport : String := "passport"

def docLicense : String := "license"

def docNationalId : String := "national_id"

def docUtilityBill : String := "utility_bill"

/-- KYC-status strings (KYCStatus enum values in the source). -/
def kycPending : String := "pending"

def kycProcessing : String := "processing"

def kycApproved : String := "approved"

def kycRejected : String := "rejected"

/-- Identity-status strings (IdentityStatus enum values in the source). -/
def stActive : String := "active"

def stRevoked : String := "revoked"

def stExpired : String := "expired"

def stSuspended : String := "suspended"

/-- Row of the documents table. -/
structure DocumentR where
  doc_id : Nat
  identity_id : Nat
  doc_type : String
  number : String
  issuing_country : String
  expiry : String
  verified : Bool
  verified_at : Option Nat
deriving Repr, DecidableEq

/-- Row of the identities table. -/
structure IdentityR where
  identity_id : Nat
  holder_name : String
  holder_email : String
  biometric_hash : Option String
  verification_level : String
  status : String
  issued_at : Nat
  expires_at : Nat
deriving Repr, DecidableEq

/-- Row of the kyc_requests table; documents_submitted is the decoded
form of the JSON-encoded array of document ids. -/
structure KYCRequestR where
  request_id : Nat
  identity_id : Nat
  requested_level : String
  documents_submitted : List Nat
  status : String
  notes : String
  processed_at : Option Nat
  created_at : Nat
deriving Repr, DecidableEq

/-- Row of the audit_log table. -/
structure AuditR where
  log_id : Nat
  identity_id : Nat
  action : String
  details : String
  timestamp : Nat
deriving Repr, DecidableEq

/-- The persisted state: the four tables plus the id-generation counter
standing in for uuid4. -/
structure DB where
  identities : List IdentityR
  documents : List DocumentR
  kyc_requests : List KYCRequestR
  audit_log : List AuditR
  next_id : Nat
deriving Repr, DecidableEq

/-- The empty database produced by init_db. -/
def initDB : DB := ⟨[], [], [], [], 0⟩

/-- Check whether a document set meets the requirements of the given
level (_check_doc_requirements in the source): basic needs at least one
document, standard at least two, enhanced at least three of which one is
a passport or national id, and any other level string trivially passes. -/
def check_doc_requirements (level : String) (docs : List DocumentR) : Bool :=
  if level == levelBasic then
    decide (1 ≤ docs.length)
  else if level == levelStandard then
    decide (2 ≤ docs.length)
  else if level == levelEnhanced then
    decide (3 ≤ docs.length) &&
      docs.any (fun d => d.doc_type == docPassport || d.doc_type == docNationalId)
  else
    true

/-- First identities row with the given id (fetchone on
SELECT * FROM identities WHERE identity_id=?). -/
def findIdentity (db : DB) (iid : Nat) : Option IdentityR :=
  db.identities.find? (fun i => i.identity_id == iid)

/-- First kyc_requests row with the given id (fetchone on
SELECT * FROM kyc_requests WHERE request_id=?). -/
def findRequest (db : DB) (rid : Nat) : Option KYCRequestR :=
  db.kyc_requests.find? (fun r => r.request_id == rid)

/-- First documents row with the given doc id and identity id (fetchone
in verify_document). -/
def findDocument (db : DB) (iid did : Nat) : Option DocumentR :=
  db.documents.find? (fun d => d.doc_id == did && d.identity_id == iid)

/-- Append one audit_log row (_log_action in the source). -/
def log_action (db : DB) (iid : Nat) (action details : String) (now : Nat) : DB :=
  { db with
    audit_log := db.audit_log ++
      [⟨db.next_id, iid, action, details, now⟩],
    next_id := db.next_id + 1 }

/-- Create a new digital identity (create_identity in the source): the
row is inserted ACTIVE/UNVERIFIED with a five-year expiry, then one
audit entry is logged.  The holder_email column is UNIQUE, so the INSERT
fails when the email is already taken; the sha256 hashing of raw
biometric data is an external library call, so the hashed value is taken
as the argument. -/
def create_identity (name email : String) (biometric_hash : Option String)
    (now : Nat) : DB → Except String (DB × IdentityR) := fun db =>
  if db.identities.any (fun i => i.holder_email == email) then
    .error "UNIQUE constraint failed: identities.holder_email"
  else
    let identity : IdentityR :=
      ⟨db.next_id, name, email, biometric_hash, levelUnverified, stActive,
        now, now + 365 * 5⟩
    let db1 : DB := { db with
      identities := db.identities ++ [identity],
      next_id := db.next_id + 1 }
    let db2 := log_action db1 identity.identity_id "CREATE_IDENTITY"
      ("Created identity for " ++ email) now
    .ok (db2, identity)

/-- Submit a document for an identity (submit_document in the source):
unknown identity raises; otherwise the document is inserted unverified
and one audit entry is logged. -/
def submit_document (iid : Nat) (doc_type number country expiry : String)
    (now : Nat) : DB → Except String (DB × DocumentR) := fun db =>
  match findIdentity db iid with
  | none => .error "Identity not found"
  | some _ =>
    let doc : DocumentR := ⟨db.next_id, iid, doc_type, number, country, expiry,
      false, none⟩
    let db1 : DB := { db with
      documents := db.documents ++ [doc],
      next_id := db.next_id + 1 }
    let db2 := log_action db1 iid "SUBMIT_DOCUMENT"
      ("Submitted " ++ doc_type ++ " document") now
    .ok (db2, doc)

/-- Verify a submitted document (verify_document in the source): the row
must exist for this identity and document id; the UPDATE then sets
verified and verified_at keyed on doc_id, and one audit entry is
logged. -/
def verify_document (iid did : Nat) (now : Nat) :
    DB → Except String (DB × Bool) := fun db =>
  match findDocument db iid did with
  | none => .error "Document not found for identity"
  | some _ =>
    let db1 : DB := { db with
      documents := db.documents.map (fun d =>
        if d.doc_id == did then { d with verified := true, verified_at := some now }
        else d) }
    let db2 := log_action db1 iid "VERIFY_DOCUMENT" "Document verified" now
    .ok (db2, true)

/-- Document ids of an identity that are currently verified, in table
order (SELECT doc_id FROM documents WHERE identity_id=? AND verified=1). -/
def verifiedDocIds (db : DB) (iid : Nat) : List Nat :=
  (db.documents.filter (fun d => d.identity_id == iid && d.verified)).map
    (fun d => d.doc_id)

/-- Initiate a KYC request (initiate_kyc in the source): unknown
identity raises; otherwise a PENDING request is inserted whose
documents_submitted snapshots the identity's currently verified document
ids, and one audit entry is logged. -/
def initiate_kyc (iid : Nat) (requested_level : String) (now : Nat) :
    DB → Except String (DB × KYCRequestR) := fun db =>
  match findIdentity db iid with
  | none => .error "Identity not found"
  | some _ =>
    let doc_ids := verifiedDocIds db iid
    let req : KYCRequestR :=
      ⟨db.next_id, iid, requested_level, doc_ids, kycPending, "", none, now⟩
    let db1 : DB := { db with
      kyc_requests := db.kyc_requests ++ [req],
      next_id := db.next_id + 1 }
    let db2 := log_action db1 iid "INITIATE_KYC"
      ("KYC requested for level " ++ requested_level) now
    .ok (db2, req)

/-- Documents rows fetched for a request's snapshot (the
SELECT * FROM documents WHERE doc_id IN (snapshot) in process_kyc; an
empty snapshot skips the query and yields the empty list). -/
def snapshotDocs (documents : List DocumentR) (doc_ids : List Nat) : List DocumentR :=
  if doc_ids.isEmpty then []
  else documents.filter (fun d => doc_ids.contains d.doc_id)

/-- Process a pending KYC request (process_kyc in the source).  Unknown
request raises; a non-PENDING request raises before any write.  A
PENDING request is first stamped PROCESSING, its snapshotted documents
are re-fetched, and it is APPROVED exactly when the fetched set is
non-empty, all of it is verified, and check_doc_requirements passes;
approval also sets the identity's verification_level to the requested
level.  Both outcomes overwrite the request's status, notes and
processed_at, and log one audit entry.  The source rebuilds a KYCRequest
dataclass as its return value after all writes are committed; that
rebuild would raise if the stored level string were not a valid enum
value, but every write and the audit entry are already committed by
then, so the embedding returns the row contents directly. -/
def process_kyc (rid : Nat) (now : Nat) :
    DB → Except String (DB × KYCRequestR) := fun db =>
  match findRequest db rid with
  | none => .error "KYC request not found"
  | some row =>
    if row.status != kycPending then
      .error "KYC request is not in pending state"
    else
      let db1 : DB := { db with
        kyc_requests := db.kyc_requests.map (fun r =>
          if r.request_id == rid then
            { r with status := kycProcessing, processed_at := some now }
          else r) }
      let doc_ids := row.documents_submitted
      let docs := snapshotDocs db1.documents doc_ids
      let all_verified := decide (0 < docs.length) && docs.all (fun d => d.verified)
      let requested_level := row.requested_level
      let meets := check_doc_requirements requested_level docs
      let approved := all_verified && meets
      let new_status := if approved then kycApproved else kycRejected
      let notes := if approved then "All documents verified and requirements met."
        else "Insufficient verified documents or requirements not met."
      let db2 : DB :=
        if approved then
          { db1 with identities := db1.identities.map (fun i =>
              if i.identity_id == row.identity_id then
                { i with verification_level := requested_level }
              else i) }
        else db1
      let db3 : DB := { db2 with
        kyc_requests := db2.kyc_requests.map (fun r =>
          if r.request_id == rid then
            { r with status := new_status, notes := notes, processed_at := some now }
          else r) }
      let db4 := log_action db3 row.identity_id "PROCESS_KYC"
        ("KYC processed: " ++ new_status) now
      let req : KYCRequestR := ⟨rid, row.identity_id, requested_level, doc_ids,
        new_status, notes, some now, row.created_at⟩
      .ok (db4, req)

/-- Revoke a digital identity (revoke_identity in the source): unknown
identity raises; otherwise status is set to REVOKED with no check on the
current status, and one audit entry is logged. -/
def revoke_identity (iid : Nat) (reason : String) (now : Nat) :
    DB → Except String (DB × Bool) := fun db =>
  match findIdentity db iid with
  | none => .error "Identity not found"
  | some _ =>
    let db1 : DB := { db with
      identities := db.identities.map (fun i =>
        if i.identity_id == iid then { i with status := stRevoked } else i) }
    let db2 := log_action db1 iid "REVOKE_IDENTITY" ("Reason: " ++ reason) now
    .ok (db2, true)

/-- Temporarily suspend an identity (suspend_identity in the source):
unknown identity raises; otherwise status is set to SUSPENDED with no
check on the current status, and one audit entry is logged. -/
def suspend_identity (iid : Nat) (reason : String) (now : Nat) :
    DB → Except String (DB × Bool) := fun db =>
  match findIdentity db iid with
  | none => .error "Identity not found"
  | some _ =>
    let db1 : DB := { db with
      identities := db.identities.map (fun i =>
        if i.identity_id == iid then { i with status := stSuspended } else i) }
    let db2 := log_action db1 iid "SUSPEND_IDENTITY" ("Reason: " ++ reason) now
    .ok (db2, true)

/-- Reactivate a suspended identity (reactivate_identity in the source):
unknown identity raises, a non-SUSPENDED identity raises; otherwise
status is set to ACTIVE and one audit entry is logged. -/
def reactivate_identity (iid : Nat) (now : Nat) :
    DB → Except String (DB × Bool) := fun db =>
  match findIdentity db iid with
  | none => .error "Identity not found"
  | some row =>
    if row.status != stSuspended then
      .error "Identity is not suspended"
    else
      let db1 : DB := { db with
        identities := db.identities.map (fun i =>
          if i.identity_id == iid then { i with status := stActive } else i) }
      let db2 := log_action db1 iid "REACTIVATE_IDENTITY" "Identity reactivated" now
      .ok (db2, true)

/-- Mark expired identities as expired (expire_old_identities in the
source): one UPDATE moves every ACTIVE identity whose expires_at is
before now to EXPIRED and returns the affected row count.  The source
logs no audit entry for this operation. -/
def expire_old_identities (now : Nat) : DB → DB × Nat := fun db =>
  let affected := (db.identities.filter (fun i =>
    i.expires_at < now && i.status == stActive)).length
  let db1 : DB := { db with
    identities := db.identities.map (fun i =>
      if i.expires_at < now && i.status == stActive then
        { i with status := stExpired }
      else i) }
  (db1, affected)

/-- Insert into a list sorted by the given comparator, keeping existing
order among equal keys. -/
def insertSorted {α : Type} (le : α → α → Bool) (a : α) : List α → List α
  | [] => [a]
  | b :: bs => if le a b then a :: b :: bs else b :: insertSorted le a bs

/-- Stable insertion sort standing in for the SQL ORDER BY clauses. -/
def sortBy {α : Type} (le : α → α → Bool) : List α → List α
  | [] => []
  | a :: as => insertSorted le a (sortBy le as)

/-- Character code folded to lower case on the ASCII range. -/
def lowerCode (c : Char) : Nat :=
  if 65 ≤ c.toNat && c.toNat ≤ 90 then c.toNat + 32 else c.toNat

/-- Case-insensitive substring test standing in for the SQLite
LIKE with wildcards on both sides used by search_identity (SQLite LIKE
is case-insensitive on ASCII). -/
def likeContains (hay needle : String) : Bool :=
  let h := hay.toList.map lowerCode
  let n := needle.toList.map lowerCode
  (List.range (h.length + 1)).any (fun k => (h.drop k).take n.length == n)

/-- Result dictionary of check_verification_level. -/
structure CheckInfo where
  identity_id : Nat
  holder_name : String
  holder_email : String
  verification_level : String
  status : String
  issued_at : Nat
  expires_at : Nat
  total_documents : Nat
  verified_documents : Nat
  pending_kyc_requests : Nat
  last_kyc_status : Option String
deriving Repr, DecidableEq

/-- KYC rows of an identity ordered by created_at descending (the
SELECT in check_verification_level and get_kyc_history). -/
def kycRowsDesc (db : DB) (iid : Nat) : List KYCRequestR :=
  sortBy (fun a b => decide (b.created_at ≤ a.created_at))
    (db.kyc_requests.filter (fun r => r.identity_id == iid))

/-- Check the current verification level and status of an identity
(check_verification_level in the source): pure SELECTs, no write; the
post-state is returned alongside the result. -/
def check_verification_level (iid : Nat) :
    DB → Except String (DB × CheckInfo) := fun db =>
  match findIdentity db iid with
  | none => .error "Identity not found"
  | some row =>
    let docs := db.documents.filter (fun d => d.identity_id == iid)
    let kyc := kycRowsDesc db iid
    let verified_docs := docs.filter (fun d => d.verified)
    let pending := kyc.filter (fun k =>
      k.status == kycPending || k.status == kycProcessing)
    .ok (db, ⟨iid, row.holder_name, row.holder_email, row.verification_level,
      row.status, row.issued_at, row.expires_at, docs.length,
      verified_docs.length, pending.length, (kyc.head?).map (fun k => k.status)⟩)

/-- Get the full audit trail for an identity (get_audit_trail in the
source): a single SELECT ordered by timestamp ascending. -/
def get_audit_trail (iid : Nat) : DB → Except String (DB × List AuditR) :=
  fun db =>
    .ok (db, sortBy (fun a b => decide (a.timestamp ≤ b.timestamp))
      (db.audit_log.filter (fun a => a.identity_id == iid)))

/-- List all identities with optional status and level filters
(list_identities in the source): a single SELECT. -/
def list_identities (status level : Option String) :
    DB → Except String (DB × List IdentityR) := fun db =>
  let rows := db.identities.filter (fun i =>
    (match status with | none => true | some s => i.status == s) &&
    (match level with | none => true | some l => i.verification_level == l))
  .ok (db, rows)

/-- Result dictionary of identity_stats; the verification rate is kept
as the exact rational verified/total*100, the source only rounding the
equivalent float for display. -/
structure StatsR where
  total_identities : Nat
  by_verification_level : List (String × Nat)
  by_status : List (String × Nat)
  pending_kyc_requests : Nat
  total_documents : Nat
  verified_documents : Nat
  verification_rate : Rat
deriving Repr, DecidableEq

/-- Aggregate statistics about all identities (identity_stats in the
source): COUNT queries only, no write. -/
def identity_stats : DB → Except String (DB × StatsR) := fun db =>
  let countLevel := fun (l : String) =>
    (db.identities.filter (fun i => i.verification_level == l)).length
  let countStatus := fun (s : String) =>
    (db.identities.filter (fun i => i.status == s)).length
  let total_docs := db.documents.length
  let verified_docs := (db.documents.filter (fun d => d.verified)).length
  .ok (db,
    ⟨db.identities.length,
      [levelUnverified, levelBasic, levelStandard, levelEnhanced].map
        (fun l => (l, countLevel l)),
      [stActive, stRevoked, stExpired, stSuspended].map
        (fun s => (s, countStatus s)),
      (db.kyc_requests.filter (fun r =>
        r.status == kycPending || r.status == kycProcessing)).length,
      total_docs, verified_docs,
      if total_docs == 0 then 0
      else (verified_docs : Rat) / (total_docs : Rat) * 100⟩)

/-- Search identities by name or email (search_identity in the source):
a single SELECT with LIKE patterns. -/
def search_identity (q : String) : DB → Except String (DB × List IdentityR) :=
  fun db =>
    .ok (db, db.identities.filter (fun i =>
      likeContains i.holder_name q || likeContains i.holder_email q))

/-- Get all documents for an identity (get_documents in the source). -/
def get_documents (iid : Nat) : DB → Except String (DB × List DocumentR) :=
  fun db => .ok (db, db.documents.filter (fun d => d.identity_id == iid))

/-- Get KYC request history for an identity (get_kyc_history in the
source): a SELECT ordered by created_at descending, with the
documents_submitted JSON decoded (already decoded in the embedding). -/
def get_kyc_history (iid : Nat) : DB → Except String (DB × List KYCRequestR) :=
  fun db => .ok (db, kycRowsDesc db iid)

/-- Generate an identity report (generate_identity_report in the
source): composes the four getters, threading the store through each
call; the text formatting of the report is display-only and abstracted
to the gathered data (the specification scopes report text formatting
out as thin I/O). -/
def generate_identity_report (iid : Nat) :
    DB → Except String (DB × (CheckInfo × List DocumentR × List KYCRequestR × List AuditR)) :=
  fun db =>
    match check_verification_level iid db with
    | .error e => .error e
    | .ok (db1, info) =>
      match get_documents iid db1 with
      | .error e => .error e
      | .ok (db2, docs) =>
        match get_kyc_history iid db2 with
        | .error e => .error e
        | .ok (db3, kyc) =>
          match get_audit_trail iid db3 with
          | .error e => .error e
          | .ok (db4, audit) => .ok (db4, (info, docs, kyc, audit))

/-- One public mutating call, with its arguments and the wall-clock
instant the source would read from datetime.utcnow(). -/
inductive Op where
  | createIdentity (name email : String) (bio : Option String) (now : Nat)
  | submitDocument (iid : Nat) (dtype number country expiry : String) (now : Nat)
  | verifyDocument (iid did : Nat) (now : Nat)
  | initiateKyc (iid : Nat) (level : String) (now : Nat)
  | processKyc (rid : Nat) (now : Nat)
  | revokeIdentity (iid : Nat) (reason : String) (now : Nat)
  | suspendIdentity (iid : Nat) (reason : String) (now : Nat)
  | reactivateIdentity (iid : Nat) (now : Nat)
  | expireOld (now : Nat)
deriving Repr, DecidableEq

/-- Apply one mutating call to the store, keeping only the resulting
state; a raised error is surfaced as .error with the state untouched,
which matches the source, where every raise happens before any write. -/
def applyOp (op : Op) (db : DB) : Except String DB :=
  match op with
  | .createIdentity name email bio now =>
    (create_identity name email bio now db).map (fun p => p.1)
  | .submitDocument iid t n c e now =>
    (submit_document iid t n c e now db).map (fun p => p.1)
  | .verifyDocument iid did now =>
    (verify_document iid did now db).map (fun p => p.1)
  | .initiateKyc iid level now =>
    (initiate_kyc iid level now db).map (fun p => p.1)
  | .processKyc rid now =>
    (process_kyc rid now db).map (fun p => p.1)
  | .revokeIdentity iid reason now =>
    (revoke_identity iid reason now db).map (fun p => p.1)
  | .suspendIdentity iid reason now =>
    (suspend_identity iid reason now db).map (fun p => p.1)
  | .reactivateIdentity iid now =>
    (reactivate_identity iid now db).map (fun p => p.1)
  | .expireOld now =>
    .ok (expire_old_identities now db).1

/-- State after one call, a failed call leaving the state unchanged. -/
def stepOp (op : Op) (db : DB) : DB :=
  match applyOp op db with
  | .ok db' => db'
  | .error _ => db

/-- State after a sequence of calls. -/
def runOps : List Op → DB → DB
  | [], db => db
  | op :: rest, db => runOps rest (stepOp op db)

/-- Numeric rank of the verification-level order
UNVERIFIED < BASIC < STANDARD < ENHANCED. -/
def levelRank (l : String) : Nat :=
  if l == levelBasic then 1
  else if l == levelStandard then 2
  else if l == levelEnhanced then 3
  else 0

/-- Projection of the identities table to (id, verification_level)
pairs. -/
def levelsOf (db : DB) : List (Nat × String) :=
  db.identities.map (fun i => (i.identity_id, i.verification_level))

/-- Projection of the identities table to (id, status) pairs. -/
def statusesOf (db : DB) : List (Nat × String) :=
  db.identities.map (fun i => (i.identity_id, i.status))

/-- Projection of the kyc_requests table to (id, snapshot) pairs. -/
def snapshotsOf (db : DB) : List (Nat × List Nat) :=
  db.kyc_requests.map (fun r => (r.request_id, r.documents_submitted))

/-- C1: check_doc_requirements returns true exactly when the level is
basic and there is at least one document, the level is standard and
there are at least two, the level is enhanced and there are at least
three of which at least one has type passport or national_id, or the
level is any other string, in which case it passes regardless of the
documents. -/
theorem c1_check_doc_requirements_spec (level : String) (docs : List DocumentR) :
    check_doc_requirements level docs = true ↔
      ((level = levelBasic ∧ 1 ≤ docs.length) ∨
       (level = levelStandard ∧ 2 ≤ docs.length) ∨
       (level = levelEnhanced ∧ 3 ≤ docs.length ∧
         ∃ d ∈ docs, d.doc_type = docPassport ∨ d.doc_type = docNationalId) ∨
       (level ≠ levelBasic ∧ level ≠ levelStandard ∧ level ≠ levelEnhanced)) := by
  unfold check_doc_requirements levelBasic levelStandard levelEnhanced
    docPassport docNationalId
  by_cases hb : level = "basic"
  · simp [hb]
  · by_cases hs : level = "standard"
    · simp [hb, hs]
    · by_cases he : level = "enhanced"
      · simp [hb, hs, he, List.any_eq_true]
      · simp [hb, hs, he]

/-- C4: processing a KYC request that is not PENDING raises the
invalid-state error; since the raise happens before any write, the
step leaves the whole store unchanged, so each request is processed at
most once. -/
theorem c4_nonpending_process_fails (db : DB) (rid now : Nat) (req : KYCRequestR)
    (hreq : findRequest db rid = some req) (hne : req.status ≠ kycPending) :
    process_kyc rid now db = .error "KYC request is not in pending state" ∧
    stepOp (.processKyc rid now) db = db := by
  have h1 : process_kyc rid now db = .error "KYC request is not in pending state" := by
    unfold process_kyc
    rw [hreq]
    simp [bne_iff_ne, hne]
  exact ⟨h1, by simp [stepOp, applyOp, h1, Except.map]⟩

/-- Concrete scenario: one identity, one KYC request with an empty
snapshot, still pending. -/
def wdb1 : DB := runOps
  [.createIdentity "Ann Lee" "ann@example.com" none 0, .initiateKyc 0 levelBasic 1]
  initDB

/-- The scenario of wdb1 after its request has been processed
(rejected, no verified documents). -/
def wdb2 : DB := stepOp (.processKyc 2 2) wdb1

/-- The processed (rejected) request row stored in wdb2. -/
def wreq2 : KYCRequestR :=
  ⟨2, 0, levelBasic, [], kycRejected,
    "Insufficient verified documents or requirements not met.", some 2, 1⟩

/-- Witness for C4 at the concrete processed request of wdb2. -/
theorem c4_nonpending_process_fails_witness :
    process_kyc 2 3 wdb2 = .error "KYC request is not in pending state" ∧
    stepOp (.processKyc 2 3) wdb2 = wdb2 :=
  c4_nonpending_process_fails wdb2 2 3 wreq2 (by decide) (by decide)

/-- C2: a successful process_kyc approves only when the snapshotted
document set re-fetched from the documents table is non-empty and every
document in it is currently verified; in particular a request whose
snapshot holds zero verified documents is rejected, whatever level it
requested. -/
theorem c2_approval_needs_verified_docs (db db' : DB) (rid now : Nat)
    (req out : KYCRequestR)
    (hreq : findRequest db rid = some req)
    (hok : process_kyc rid now db = .ok (db', out)) :
    (out.status = kycApproved →
       snapshotDocs db.documents req.documents_submitted ≠ [] ∧
       ∀ d ∈ snapshotDocs db.documents req.documents_submitted, d.verified = true) ∧
    ((snapshotDocs db.documents req.documents_submitted).countP
        (fun d => d.verified) = 0 →
       out.status = kycRejected) := by
  unfold process_kyc at hok
  rw [hreq] at hok
  dsimp only at hok
  cases hstat : (req.status != kycPending) with
  | true => rw [hstat] at hok; exact absurd hok (by simp)
  | false =>
    rw [hstat] at hok
    simp only [if_false, Bool.false_eq_true, reduceIte, Except.ok.injEq,
      Prod.mk.injEq] at hok
    obtain ⟨-, hout⟩ := hok
    subst hout
    set docs := snapshotDocs db.documents req.documents_submitted with hdocs
    by_cases hA : ((decide (0 < docs.length) && docs.all fun d => d.verified) &&
        check_doc_requirements req.requested_level docs) = true
    · constructor
      · intro _
        have h1 := (Bool.and_eq_true _ _).mp ((Bool.and_eq_true _ _).mp hA).1
        refine ⟨?_, ?_⟩
        · have := of_decide_eq_true h1.1
          intro hnil
          rw [hnil] at this
          simp at this
        · intro d hd
          exact List.all_eq_true.mp h1.2 d hd
      · intro hcount
        have h1 := (Bool.and_eq_true _ _).mp ((Bool.and_eq_true _ _).mp hA).1
        have hlen := of_decide_eq_true h1.1
        obtain ⟨d, hd⟩ := List.exists_mem_of_length_pos hlen
        have hv := List.all_eq_true.mp h1.2 d hd
        have := List.countP_eq_zero.mp hcount d hd
        exact absurd hv this
    · simp only [hA, if_false, Bool.false_eq_true, reduceIte]
      constructor
      · intro h
        exact absurd h (by simp [kycApproved, kycRejected])
      · intro _
        trivial

/-- The pending request row stored in wdb1. -/
def wreq1 : KYCRequestR := ⟨2, 0, levelBasic, [], kycPending, "", none, 1⟩

/-- Witness for C2 at the concrete pending request of wdb1, whose empty
snapshot forces rejection. -/
theorem c2_approval_needs_verified_docs_witness :
    (wreq2.status = kycApproved →
       snapshotDocs wdb1.documents wreq1.documents_submitted ≠ [] ∧
       ∀ d ∈ snapshotDocs wdb1.documents wreq1.documents_submitted,
         d.verified = true) ∧
    ((snapshotDocs wdb1.documents wreq1.documents_submitted).countP
        (fun d => d.verified) = 0 →
       wreq2.status = kycRejected) :=
  c2_approval_needs_verified_docs wdb1 wdb2 2 2 wreq1 wreq2 (by decide) rfl

/-- C3: a successful process_kyc sets the identity's
verification_level to the requested level when the outcome is APPROVED,
changes no identity row when the outcome is REJECTED, and in both
outcomes writes the request's status, a non-empty notes string and the
processing timestamp. -/
theorem c3_process_kyc_effects (db db' : DB) (rid now : Nat)
    (req out : KYCRequestR)
    (hreq : findRequest db rid = some req)
    (hok : process_kyc rid now db = .ok (db', out)) :
    (out.status = kycApproved →
       ∀ i ∈ db'.identities, i.identity_id = req.identity_id →
         i.verification_level = req.requested_level) ∧
    (out.status = kycRejected → db'.identities = db.identities) ∧
    (out.status = kycApproved ∨ out.status = kycRejected) ∧
    (∀ r ∈ db'.kyc_requests, r.request_id = rid →
       r.status = out.status ∧ r.notes = out.notes ∧ r.processed_at = some now) ∧
    (out.notes ≠ "" ∧ out.processed_at = some now) := by
  unfold process_kyc at hok
  rw [hreq] at hok
  dsimp only at hok
  cases hstat : (req.status != kycPending) with
  | true => rw [hstat] at hok; exact absurd hok (by simp)
  | false =>
    rw [hstat] at hok
    simp only [Bool.false_eq_true, reduceIte, Except.ok.injEq,
      Prod.mk.injEq] at hok
    obtain ⟨hdb, hout⟩ := hok
    subst hdb
    subst hout
    set docs := snapshotDocs db.documents req.documents_submitted with hdocs
    by_cases hA : ((decide (0 < docs.length) && docs.all fun d => d.verified) &&
        check_doc_requirements req.requested_level docs) = true
    · simp only [hA, reduceIte]
      refine ⟨?_, ?_, ?_, ?_, ?_, ?_⟩
      · intro _ i hi hid
        dsimp only [log_action] at hi
        rw [List.mem_map] at hi
        obtain ⟨x, hx, hfx⟩ := hi
        by_cases hm : (x.identity_id == req.identity_id) = true
        · rw [if_pos hm] at hfx
          rw [← hfx]
        · rw [if_neg hm] at hfx
          rw [← hfx] at hid
          exact absurd (beq_iff_eq.mpr hid) hm
      · intro h
        exact absurd h (by decide)
      · trivial
      · intro r hr hrid
        dsimp only [log_action] at hr
        rw [List.map_map, List.mem_map] at hr
        obtain ⟨x, hx, hgx⟩ := hr
        by_cases hm : (x.request_id == rid) = true
        · rw [← hgx]
          dsimp only [Function.comp]
          rw [if_pos hm]
          dsimp only
          rw [if_pos hm]
          exact ⟨rfl, rfl, rfl⟩
        · rw [← hgx] at hrid
          dsimp only [Function.comp] at hrid
          rw [if_neg hm] at hrid
          rw [if_neg hm] at hrid
          exact absurd (beq_iff_eq.mpr hrid) hm
      · decide
      · trivial
    · simp only [hA, Bool.false_eq_true, reduceIte]
      refine ⟨?_, fun _ => rfl, ?_, ?_, ?_, ?_⟩
      · intro h
        exact absurd h (by decide)
      · trivial
      · intro r hr hrid
        dsimp only [log_action] at hr
        rw [List.map_map, List.mem_map] at hr
        obtain ⟨x, hx, hgx⟩ := hr
        by_cases hm : (x.request_id == rid) = true
        · rw [← hgx]
          dsimp only [Function.comp]
          rw [if_pos hm]
          dsimp only
          rw [if_pos hm]
          exact ⟨rfl, rfl, rfl⟩
        · rw [← hgx] at hrid
          dsimp only [Function.comp] at hrid
          rw [if_neg hm] at hrid
          rw [if_neg hm] at hrid
          exact absurd (beq_iff_eq.mpr hrid) hm
      · decide
      · trivial

/-- Concrete scenario from the specification's example: identity with
one verified passport and a pending BASIC request. -/
def wdb3 : DB := runOps
  [.createIdentity "Dave Brown" "dave@example.com" none 10,
   .submitDocument 0 docPassport "P999" "UK" "2029-01-01" 11,
   .verifyDocument 0 2 12,
   .initiateKyc 0 levelBasic 13]
  initDB

/-- The scenario of wdb3 after its request has been processed
(approved). -/
def wdb4 : DB := stepOp (.processKyc 5 14) wdb3

/-- The pending request row stored in wdb3. -/
def wreq3 : KYCRequestR := ⟨5, 0, levelBasic, [2], kycPending, "", none, 13⟩

/-- The approved request returned for wdb3's request. -/
def wreq4 : KYCRequestR :=
  ⟨5, 0, levelBasic, [2], kycApproved,
    "All documents verified and requirements met.", some 14, 13⟩

/-- Witness for C3 at the approved BASIC request of wdb3. -/
theorem c3_process_kyc_effects_witness :
    (wreq4.status = kycApproved →
       ∀ i ∈ wdb4.identities, i.identity_id = wreq3.identity_id →
         i.verification_level = wreq3.requested_level) ∧
    (wreq4.status = kycRejected → wdb4.identities = wdb3.identities) ∧
    (wreq4.status = kycApproved ∨ wreq4.status = kycRejected) ∧
    (∀ r ∈ wdb4.kyc_requests, r.request_id = 5 →
       r.status = wreq4.status ∧ r.notes = wreq4.notes ∧
         r.processed_at = some 14) ∧
    (wreq4.notes ≠ "" ∧ wreq4.processed_at = some 14) :=
  c3_process_kyc_effects wdb3 wdb4 5 14 wreq3 wreq4 (by decide) rfl

/-- Helper: find? for an identity id commutes with mapping an
id-preserving transform over the table. -/
theorem find?_map_id_preserving (g : IdentityR → IdentityR)
    (hg : ∀ i, (g i).identity_id = i.identity_id) (l : List IdentityR)
    (iid : Nat) :
    (l.map g).find? (fun i => i.identity_id == iid) =
      (l.find? (fun i => i.identity_id == iid)).map g := by
  induction l with
  | nil => rfl
  | cons x xs ih =>
    by_cases hm : (x.identity_id == iid) = true
    · have hgx : ((g x).identity_id == iid) = true := by
        rw [hg x]; exact hm
      simp [List.find?, hm, hgx]
    · have hm' : (x.identity_id == iid) = false := by simpa using hm
      have hgx : ((g x).identity_id == iid) = false := by rw [hg x]; exact hm'
      simp [List.find?, hm', hgx, ih]

/-- Helper: after conditionally setting the status of every row with
the given id, every row carrying that id has the new status. -/
theorem status_after_cond_set (l : List IdentityR) (iid : Nat) (s : String) :
    ∀ j ∈ l.map (fun i =>
        if i.identity_id == iid then { i with status := s } else i),
      j.identity_id = iid → j.status = s := by
  intro j hj hid
  rw [List.mem_map] at hj
  obtain ⟨x, hx, hfx⟩ := hj
  by_cases hm : (x.identity_id == iid) = true
  · rw [if_pos hm] at hfx
    rw [← hfx]
  · rw [if_neg hm] at hfx
    rw [← hfx] at hid
    exact absurd (beq_iff_eq.mpr hid) hm

/-- C9: revoking an already revoked identity does not raise and leaves
the status REVOKED, and reactivating an identity whose current status is
not SUSPENDED raises the invalid-state error. -/
theorem c9_revoke_idempotent_reactivate_guarded (db db1 : DB) (iid : Nat)
    (r1 r2 : String) (n1 n2 now : Nat) (b : Bool) (i : IdentityR) :
    (revoke_identity iid r1 n1 db = .ok (db1, b) →
       ∃ db2, revoke_identity iid r2 n2 db1 = .ok (db2, true) ∧
         ∀ j ∈ db2.identities, j.identity_id = iid → j.status = stRevoked) ∧
    (findIdentity db iid = some i → i.status ≠ stSuspended →
       reactivate_identity iid now db = .error "Identity is not suspended") := by
  constructor
  · intro hok
    unfold revoke_identity at hok
    cases hfind : findIdentity db iid with
    | none => rw [hfind] at hok; exact absurd hok (by simp)
    | some j =>
      rw [hfind] at hok
      simp only [Except.ok.injEq, Prod.mk.injEq] at hok
      obtain ⟨hdb1, -⟩ := hok
      unfold revoke_identity
      have hfind1 : findIdentity db1 iid = some
          (if j.identity_id == iid then { j with status := stRevoked } else j) := by
        rw [← hdb1]
        unfold findIdentity
        dsimp only [log_action]
        rw [find?_map_id_preserving _ (fun x => by split <;> rfl)]
        rw [show db.identities.find? (fun i => i.identity_id == iid) = some j
          from hfind]
        rfl
      rw [hfind1]
      refine ⟨_, rfl, ?_⟩
      dsimp only [log_action]
      rw [← hdb1]
      dsimp only [log_action]
      rw [List.map_map]
      intro x hx hxid
      rw [List.mem_map] at hx
      obtain ⟨y, hy, hgy⟩ := hx
      dsimp only [Function.comp] at hgy
      by_cases hm : (y.identity_id == iid) = true
      · rw [if_pos hm] at hgy
        rw [if_pos hm] at hgy
        rw [← hgy]
      · rw [if_neg hm, if_neg hm] at hgy
        rw [← hgy] at hxid
        exact absurd (beq_iff_eq.mpr hxid) hm
  · intro hfind hne
    unfold reactivate_identity
    rw [hfind]
    simp [bne_iff_ne, hne]

/-- The scenario of wdb1 after one revoke call. -/
def wdb5 : DB := stepOp (.revokeIdentity 0 "fraud" 4) wdb1

/-- The identity row stored in wdb1 (still ACTIVE). -/
def wident : IdentityR :=
  ⟨0, "Ann Lee", "ann@example.com", none, levelUnverified, stActive, 0, 1825⟩

/-- Witness for C9: a second revoke on the already revoked identity of
wdb5 succeeds and keeps the status REVOKED, and reactivating the ACTIVE
identity of wdb1 fails. -/
theorem c9_revoke_idempotent_reactivate_guarded_witness :
    (∃ db2, revoke_identity 0 "again" 5 wdb5 = .ok (db2, true) ∧
       ∀ j ∈ db2.identities, j.identity_id = 0 → j.status = stRevoked) ∧
    reactivate_identity 0 6 wdb1 = .error "Identity is not suspended" :=
  ⟨(c9_revoke_idempotent_reactivate_guarded wdb1 wdb5 0 "fraud" "again" 4 5 6
      true wident).1 rfl,
   (c9_revoke_idempotent_reactivate_guarded wdb1 wdb5 0 "fraud" "again" 4 5 6
      true wident).2 (by decide) (by decide)⟩

/-- C10: the read-only operations (check_verification_level,
get_documents, get_kyc_history, get_audit_trail, list_identities,
search_identity, identity_stats, generate_identity_report) run SELECTs
only, so a successful call leaves the whole store unchanged. -/
theorem c10_read_only_ops_preserve_state (db : DB) (iid : Nat)
    (status level : Option String) (q : String) :
    (∀ db' r, check_verification_level iid db = .ok (db', r) → db' = db) ∧
    (∀ db' r, get_documents iid db = .ok (db', r) → db' = db) ∧
    (∀ db' r, get_kyc_history iid db = .ok (db', r) → db' = db) ∧
    (∀ db' r, get_audit_trail iid db = .ok (db', r) → db' = db) ∧
    (∀ db' r, list_identities status level db = .ok (db', r) → db' = db) ∧
    (∀ db' r, search_identity q db = .ok (db', r) → db' = db) ∧
    (∀ db' r, identity_stats db = .ok (db', r) → db' = db) ∧
    (∀ db' r, generate_identity_report iid db = .ok (db', r) → db' = db) := by
  refine ⟨?_, ?_, ?_, ?_, ?_, ?_, ?_, ?_⟩
  · intro db' r h
    unfold check_verification_level at h
    cases hfind : findIdentity db iid with
    | none => rw [hfind] at h; exact absurd h (by simp)
    | some row =>
      rw [hfind] at h
      simp only [Except.ok.injEq, Prod.mk.injEq] at h
      exact h.1.symm
  · intro db' r h
    unfold get_documents at h
    simp only [Except.ok.injEq, Prod.mk.injEq] at h
    exact h.1.symm
  · intro db' r h
    unfold get_kyc_history at h
    simp only [Except.ok.injEq, Prod.mk.injEq] at h
    exact h.1.symm
  · intro db' r h
    unfold get_audit_trail at h
    simp only [Except.ok.injEq, Prod.mk.injEq] at h
    exact h.1.symm
  · intro db' r h
    unfold list_identities at h
    simp only [Except.ok.injEq, Prod.mk.injEq] at h
    exact h.1.symm
  · intro db' r h
    unfold search_identity at h
    simp only [Except.ok.injEq, Prod.mk.injEq] at h
    exact h.1.symm
  · intro db' r h
    unfold identity_stats at h
    simp only [Except.ok.injEq, Prod.mk.injEq] at h
    exact h.1.symm
  · intro db' r h
    unfold generate_identity_report check_verification_level get_documents
      get_kyc_history get_audit_trail at h
    cases hfind : findIdentity db iid with
    | none => rw [hfind] at h; exact absurd h (by simp)
    | some row =>
      rw [hfind] at h
      simp only [Except.ok.injEq, Prod.mk.injEq] at h
      exact h.1.symm

/-- Result of check_verification_level on wdb1. -/
def winfo : CheckInfo :=
  ⟨0, "Ann Lee", "ann@example.com", levelUnverified, stActive, 0, 1825, 0, 0,
    1, some kycPending⟩

/-- Audit trail of wdb1 ordered by timestamp. -/
def wtrail : List AuditR :=
  [⟨1, 0, "CREATE_IDENTITY", "Created identity for ann@example.com", 0⟩,
   ⟨3, 0, "INITIATE_KYC", "KYC requested for level basic", 1⟩]

/-- Aggregate statistics of wdb1. -/
def wstats : StatsR :=
  ⟨1, [(levelUnverified, 1), (levelBasic, 0), (levelStandard, 0),
    (levelEnhanced, 0)],
   [(stActive, 1), (stRevoked, 0), (stExpired, 0), (stSuspended, 0)],
   1, 0, 0, 0⟩

/-- Witness for C10: every read-only operation on wdb1 succeeds with
wdb1 itself as the post-state. -/
theorem c10_read_only_ops_preserve_state_witness :
    (check_verification_level 0 wdb1 = .ok (wdb1, winfo) ∧ wdb1 = wdb1) ∧
    (get_documents 0 wdb1 = .ok (wdb1, []) ∧ wdb1 = wdb1) ∧
    (get_kyc_history 0 wdb1 = .ok (wdb1, [wreq1]) ∧ wdb1 = wdb1) ∧
    (get_audit_trail 0 wdb1 = .ok (wdb1, wtrail) ∧ wdb1 = wdb1) ∧
    (list_identities none none wdb1 = .ok (wdb1, [wident]) ∧ wdb1 = wdb1) ∧
    (search_identity "ann" wdb1 = .ok (wdb1, [wident]) ∧ wdb1 = wdb1) ∧
    (identity_stats wdb1 = .ok (wdb1, wstats) ∧ wdb1 = wdb1) ∧
    (generate_identity_report 0 wdb1 =
        .ok (wdb1, (winfo, [], [wreq1], wtrail)) ∧ wdb1 = wdb1) :=
  ⟨⟨by rfl, (c10_read_only_ops_preserve_state wdb1 0 none none "ann").1
      wdb1 winfo (by rfl)⟩,
   ⟨by rfl, (c10_read_only_ops_preserve_state wdb1 0 none none "ann").2.1
      wdb1 [] (by rfl)⟩,
   ⟨by rfl, (c10_read_only_ops_preserve_state wdb1 0 none none "ann").2.2.1
      wdb1 [wreq1] (by rfl)⟩,
   ⟨by rfl, (c10_read_only_ops_preserve_state wdb1 0 none none "ann").2.2.2.1
      wdb1 wtrail (by rfl)⟩,
   ⟨by rfl, (c10_read_only_ops_preserve_state wdb1 0 none none "ann").2.2.2.2.1
      wdb1 [wident] (by rfl)⟩,
   ⟨by rfl, (c10_read_only_ops_preserve_state wdb1 0 none none "ann").2.2.2.2.2.1
      wdb1 [wident] (by rfl)⟩,
   ⟨by rfl, (c10_read_only_ops_preserve_state wdb1 0 none none "ann").2.2.2.2.2.2.1
      wdb1 wstats (by rfl)⟩,
   ⟨by rfl, (c10_read_only_ops_preserve_state wdb1 0 none none "ann").2.2.2.2.2.2.2
      wdb1 (winfo, [], [wreq1], wtrail) (by rfl)⟩⟩

/-- Helper: mapping a transform that preserves request_id and
documents_submitted over the kyc_requests table leaves the
(id, snapshot) projection unchanged. -/
theorem snapshots_map_eq (f : KYCRequestR → KYCRequestR)
    (hf : ∀ r, (f r).request_id = r.request_id ∧
      (f r).documents_submitted = r.documents_submitted)
    (l : List KYCRequestR) :
    (l.map f).map (fun r => (r.request_id, r.documents_submitted)) =
      l.map (fun r => (r.request_id, r.documents_submitted)) := by
  induction l with
  | nil => rfl
  | cons x xs ih => simp [List.map_cons, (hf x).1, (hf x).2, ih]

/-- C5: initiate_kyc stores as documents_submitted exactly the ids of
the identity's documents that are verified at that moment, and no
mutating call ever changes the stored snapshot of an existing request:
the (id, snapshot) projection of the kyc_requests table only ever grows
by appending. -/
theorem c5_snapshot_frozen_at_creation (db : DB) :
    (∀ iid level now db' req,
       initiate_kyc iid level now db = .ok (db', req) →
       req.documents_submitted =
         (db.documents.filter (fun d => d.identity_id == iid &&
           d.verified)).map (fun d => d.doc_id)) ∧
    (∀ op db', applyOp op db = .ok db' →
       ∃ tail, snapshotsOf db' = snapshotsOf db ++ tail) := by
  constructor
  · intro iid level now db' req hok
    unfold initiate_kyc at hok
    cases hfind : findIdentity db iid with
    | none => rw [hfind] at hok; exact absurd hok (by simp)
    | some row =>
      rw [hfind] at hok
      simp only [Except.ok.injEq, Prod.mk.injEq] at hok
      rw [← hok.2]
      rfl
  · intro op db' hok
    cases op with
    | createIdentity name email bio now =>
      simp only [applyOp, create_identity] at hok
      cases hdup : db.identities.any (fun i => i.holder_email == email) with
      | true => rw [hdup] at hok; exact absurd hok (by simp [Except.map])
      | false =>
        rw [hdup] at hok
        simp only [Bool.false_eq_true, reduceIte, Except.map, Except.ok.injEq] at hok
        exact ⟨[], by rw [← hok]; simp [snapshotsOf, log_action]⟩
    | submitDocument iid t n c e now =>
      simp only [applyOp, submit_document] at hok
      cases hfind : findIdentity db iid with
      | none => rw [hfind] at hok; exact absurd hok (by simp [Except.map])
      | some row =>
        rw [hfind] at hok
        simp only [Except.map, Except.ok.injEq] at hok
        exact ⟨[], by rw [← hok]; simp [snapshotsOf, log_action]⟩
    | verifyDocument iid did now =>
      simp only [applyOp, verify_document] at hok
      cases hfind : findDocument db iid did with
      | none => rw [hfind] at hok; exact absurd hok (by simp [Except.map])
      | some row =>
        rw [hfind] at hok
        simp only [Except.map, Except.ok.injEq] at hok
        exact ⟨[], by rw [← hok]; simp [snapshotsOf, log_action]⟩
    | initiateKyc iid level now =>
      simp only [applyOp, initiate_kyc] at hok
      cases hfind : findIdentity db iid with
      | none => rw [hfind] at hok; exact absurd hok (by simp [Except.map])
      | some row =>
        rw [hfind] at hok
        simp only [Except.map, Except.ok.injEq] at hok
        refine ⟨[(db.next_id, verifiedDocIds db iid)], ?_⟩
        rw [← hok]
        simp [snapshotsOf, log_action]
    | processKyc rid now =>
      simp only [applyOp, process_kyc] at hok
      cases hfind : findRequest db rid with
      | none => rw [hfind] at hok; exact absurd hok (by simp [Except.map])
      | some row =>
        rw [hfind] at hok
        dsimp only at hok
        cases hstat : (row.status != kycPending) with
        | true => rw [hstat] at hok; exact absurd hok (by simp [Except.map])
        | false =>
          rw [hstat] at hok
          simp only [Bool.false_eq_true, reduceIte, Except.map,
            Except.ok.injEq] at hok
          refine ⟨[], ?_⟩
          rw [← hok]
          simp only [snapshotsOf, log_action, List.append_nil]
          split <;>
            (dsimp only
             rw [snapshots_map_eq _
                 (fun r => ⟨by split <;> rfl, by split <;> rfl⟩),
               snapshots_map_eq _
                 (fun r => ⟨by split <;> rfl, by split <;> rfl⟩)])
    | revokeIdentity iid reason now =>
      simp only [applyOp, revoke_identity] at hok
      cases hfind : findIdentity db iid with
      | none => rw [hfind] at hok; exact absurd hok (by simp [Except.map])
      | some row =>
        rw [hfind] at hok
        simp only [Except.map, Except.ok.injEq] at hok
        exact ⟨[], by rw [← hok]; simp [snapshotsOf, log_action]⟩
    | suspendIdentity iid reason now =>
      simp only [applyOp, suspend_identity] at hok
      cases hfind : findIdentity db iid with
      | none => rw [hfind] at hok; exact absurd hok (by simp [Except.map])
      | some row =>
        rw [hfind] at hok
        simp only [Except.map, Except.ok.injEq] at hok
        exact ⟨[], by rw [← hok]; simp [snapshotsOf, log_action]⟩
    | reactivateIdentity iid now =>
      simp only [applyOp, reactivate_identity] at hok
      cases hfind : findIdentity db iid with
      | none => rw [hfind] at hok; exact absurd hok (by simp [Except.map])
      | some row =>
        rw [hfind] at hok
        dsimp only at hok
        cases hstat : (row.status != stSuspended) with
        | true => rw [hstat] at hok; exact absurd hok (by simp [Except.map])
        | false =>
          rw [hstat] at hok
          simp only [Bool.false_eq_true, reduceIte, Except.map,
            Except.ok.injEq] at hok
          exact ⟨[], by rw [← hok]; simp [snapshotsOf, log_action]⟩
    | expireOld now =>
      simp only [applyOp, expire_old_identities, Except.ok.injEq] at hok
      exact ⟨[], by rw [← hok]; simp [snapshotsOf]⟩

/-- Helper: mapping a transform that preserves identity_id and
verification_level over the identities table leaves the (id, level)
projection unchanged. -/
theorem levels_map_eq (f : IdentityR → IdentityR)
    (hf : ∀ i, (f i).identity_id = i.identity_id ∧
      (f i).verification_level = i.verification_level)
    (l : List IdentityR) :
    (l.map f).map (fun i => (i.identity_id, i.verification_level)) =
      l.map (fun i => (i.identity_id, i.verification_level)) := by
  induction l with
  | nil => rfl
  | cons x xs ih => simp [List.map_cons, (hf x).1, (hf x).2, ih]

/-- Helper: conditionally setting the verification level of every row
with the given id acts on the (id, level) projection as the
corresponding update on pairs. -/
theorem levels_map_set (l : List IdentityR) (iid : Nat) (lvl : String) :
    (l.map (fun i => if i.identity_id == iid then
        { i with verification_level := lvl } else i)).map
      (fun i => (i.identity_id, i.verification_level)) =
      (l.map (fun i => (i.identity_id, i.verification_level))).map
        (fun p => if p.1 = iid then (p.1, lvl) else p) := by
  induction l with
  | nil => rfl
  | cons x xs ih =>
    simp only [List.map_cons]
    by_cases hm : (x.identity_id == iid) = true
    · have hx := beq_iff_eq.mp hm
      rw [if_pos hm, ih]
      rw [hx, if_pos rfl]
    · have hx : ¬ x.identity_id = iid := fun h => hm (beq_iff_eq.mpr h)
      rw [if_neg hm, ih]
      rw [if_neg hx]

/-- C6 (amended): a mutating call either leaves the (id, level)
projection of the identities table unchanged, appends one new
UNVERIFIED identity, or is a process_kyc whose outcome is APPROVED, in
which case the level of the request's identity is overwritten with the
requested level — which the source applies even when the requested
level is below the current one, so the level need not increase. -/
theorem c6_level_changes_only_via_approved_kyc (op : Op) (db db' : DB)
    (hok : applyOp op db = .ok db') :
    levelsOf db' = levelsOf db ∨
    (levelsOf db' = levelsOf db ++ [(db.next_id, levelUnverified)]) ∨
    (∃ rid now req out, op = .processKyc rid now ∧
       findRequest db rid = some req ∧
       process_kyc rid now db = .ok (db', out) ∧
       out.status = kycApproved ∧
       levelsOf db' = (levelsOf db).map (fun p =>
         if p.1 = req.identity_id then (p.1, req.requested_level) else p)) := by
  cases op with
  | createIdentity name email bio now =>
    simp only [applyOp, create_identity] at hok
    cases hdup : db.identities.any (fun i => i.holder_email == email) with
    | true => rw [hdup] at hok; exact absurd hok (by simp [Except.map])
    | false =>
      rw [hdup] at hok
      simp only [Bool.false_eq_true, reduceIte, Except.map, Except.ok.injEq] at hok
      refine Or.inr (Or.inl ?_)
      rw [← hok]
      simp [levelsOf, log_action]
  | submitDocument iid t n c e now =>
    simp only [applyOp, submit_document] at hok
    cases hfind : findIdentity db iid with
    | none => rw [hfind] at hok; exact absurd hok (by simp [Except.map])
    | some row =>
      rw [hfind] at hok
      simp only [Except.map, Except.ok.injEq] at hok
      exact Or.inl (by rw [← hok]; simp [levelsOf, log_action])
  | verifyDocument iid did now =>
    simp only [applyOp, verify_document] at hok
    cases hfind : findDocument db iid did with
    | none => rw [hfind] at hok; exact absurd hok (by simp [Except.map])
    | some row =>
      rw [hfind] at hok
      simp only [Except.map, Except.ok.injEq] at hok
      exact Or.inl (by rw [← hok]; simp [levelsOf, log_action])
  | initiateKyc iid level now =>
    simp only [applyOp, initiate_kyc] at hok
    cases hfind : findIdentity db iid with
    | none => rw [hfind] at hok; exact absurd hok (by simp [Except.map])
    | some row =>
      rw [hfind] at hok
      simp only [Except.map, Except.ok.injEq] at hok
      exact Or.inl (by rw [← hok]; simp [levelsOf, log_action])
  | processKyc rid now =>
    cases hpk : process_kyc rid now db with
    | error e =>
      simp only [applyOp, hpk, Except.map] at hok
      exact absurd hok (by simp)
    | ok p =>
      obtain ⟨p1, p2⟩ := p
      have hdb' : p1 = db' := by
        simp only [applyOp, hpk, Except.map, Except.ok.injEq] at hok
        exact hok
      subst hdb'
      have hpk0 : process_kyc rid now db = .ok (p1, p2) := hpk
      unfold process_kyc at hpk
      cases hfind : findRequest db rid with
      | none => rw [hfind] at hpk; exact absurd hpk (by simp)
      | some row =>
        rw [hfind] at hpk
        dsimp only at hpk
        cases hstat : (row.status != kycPending) with
        | true => rw [hstat] at hpk; exact absurd hpk (by simp)
        | false =>
          rw [hstat] at hpk
          simp only [Bool.false_eq_true, reduceIte, Except.ok.injEq,
            Prod.mk.injEq] at hpk
          obtain ⟨h1, h2⟩ := hpk
          subst h1
          subst h2
          by_cases hA : ((decide (0 <
              (snapshotDocs db.documents row.documents_submitted).length) &&
              (snapshotDocs db.documents row.documents_submitted).all
                fun d => d.verified) &&
              check_doc_requirements row.requested_level
                (snapshotDocs db.documents row.documents_submitted)) = true
          · refine Or.inr (Or.inr ⟨rid, now, row, _, rfl, hfind, hpk0, ?_, ?_⟩)
            · simp only [hA, reduceIte]
            · simp only [hA, reduceIte, levelsOf, log_action]
              exact levels_map_set db.identities row.identity_id
                row.requested_level
          · refine Or.inl ?_
            simp only [hA, Bool.false_eq_true, reduceIte, levelsOf, log_action]
  | revokeIdentity iid reason now =>
    simp only [applyOp, revoke_identity] at hok
    cases hfind : findIdentity db iid with
    | none => rw [hfind] at hok; exact absurd hok (by simp [Except.map])
    | some row =>
      rw [hfind] at hok
      simp only [Except.map, Except.ok.injEq] at hok
      refine Or.inl ?_
      rw [← hok]
      simp only [levelsOf, log_action]
      exact levels_map_eq _ (fun i => ⟨by split <;> rfl, by split <;> rfl⟩) _
  | suspendIdentity iid reason now =>
    simp only [applyOp, suspend_identity] at hok
    cases hfind : findIdentity db iid with
    | none => rw [hfind] at hok; exact absurd hok (by simp [Except.map])
    | some row =>
      rw [hfind] at hok
      simp only [Except.map, Except.ok.injEq] at hok
      refine Or.inl ?_
      rw [← hok]
      simp only [levelsOf, log_action]
      exact levels_map_eq _ (fun i => ⟨by split <;> rfl, by split <;> rfl⟩) _
  | reactivateIdentity iid now =>
    simp only [applyOp, reactivate_identity] at hok
    cases hfind : findIdentity db iid with
    | none => rw [hfind] at hok; exact absurd hok (by simp [Except.map])
    | some row =>
      rw [hfind] at hok
      dsimp only at hok
      cases hstat : (row.status != stSuspended) with
      | true => rw [hstat] at hok; exact absurd hok (by simp [Except.map])
      | false =>
        rw [hstat] at hok
        simp only [Bool.false_eq_true, reduceIte, Except.map,
          Except.ok.injEq] at hok
        refine Or.inl ?_
        rw [← hok]
        simp only [levelsOf, log_action]
        exact levels_map_eq _ (fun i => ⟨by split <;> rfl, by split <;> rfl⟩) _
  | expireOld now =>
    simp only [applyOp, expire_old_identities, Except.ok.injEq] at hok
    refine Or.inl ?_
    rw [← hok]
    simp only [levelsOf]
    exact levels_map_eq _ (fun i => ⟨by split <;> rfl, by split <;> rfl⟩) _

/-- Scenario refuting the monotonicity half of the level claim: an
identity is brought to ENHANCED through an approved request, then a
second request for BASIC is created and left pending. -/
def c6db : DB := runOps
  [.createIdentity "Ivy Cole" "ivy@example.com" none 0,
   .submitDocument 0 docPassport "p1" "US" "2030" 1,
   .submitDocument 0 docNationalId "n1" "US" "2030" 2,
   .submitDocument 0 docLicense "l1" "US" "2030" 3,
   .verifyDocument 0 2 4,
   .verifyDocument 0 4 5,
   .verifyDocument 0 6 6,
   .initiateKyc 0 levelEnhanced 7,
   .processKyc 11 8,
   .initiateKyc 0 levelBasic 9]
  initDB

/-- The scenario of c6db after the pending BASIC request is processed. -/
def c6dbAfter : DB := stepOp (.processKyc 14 10) c6db

/-- Counterexample to C6 as stated: processing the approved BASIC
request on c6db moves the identity's verification level from ENHANCED
down to BASIC, so the level of an identity does not only increase. -/
theorem c6_counterexample :
    applyOp (.processKyc 14 10) c6db = .ok c6dbAfter ∧
    (findIdentity c6db 0).map (fun i => i.verification_level) =
      some levelEnhanced ∧
    (findIdentity c6dbAfter 0).map (fun i => i.verification_level) =
      some levelBasic ∧
    (findRequest c6dbAfter 14).map (fun r => r.status) = some kycApproved ∧
    levelRank levelBasic < levelRank levelEnhanced :=
  ⟨by rfl, by decide, by decide, by decide, by decide⟩

/-- Witness for the amended C6 at the level-lowering approval of c6db. -/
theorem c6_level_changes_only_via_approved_kyc_witness :
    levelsOf c6dbAfter = levelsOf c6db ∨
    (levelsOf c6dbAfter = levelsOf c6db ++ [(c6db.next_id, levelUnverified)]) ∨
    (∃ rid now req out, (Op.processKyc 14 10) = .processKyc rid now ∧
       findRequest c6db rid = some req ∧
       process_kyc rid now c6db = .ok (c6dbAfter, out) ∧
       out.status = kycApproved ∧
       levelsOf c6dbAfter = (levelsOf c6db).map (fun p =>
         if p.1 = req.identity_id then (p.1, req.requested_level) else p)) :=
  c6_level_changes_only_via_approved_kyc (.processKyc 14 10) c6db c6dbAfter
    (by rfl)

/-- Scenario with a revoked identity: created, then revoked. -/
def c7db : DB := runOps
  [.createIdentity "Bob Ray" "bob@example.com" none 0,
   .revokeIdentity 0 "fraud" 1]
  initDB

/-- The scenario of c7db after suspending and reactivating the revoked
identity. -/
def c7dbOut : DB :=
  runOps [.suspendIdentity 0 "review" 2, .reactivateIdentity 0 3] c7db

/-- Counterexample to C7 as stated: the REVOKED identity of c7db is
moved to SUSPENDED by suspend_identity, whose source has no check on
the current status, and from there reactivate_identity moves it to
ACTIVE — so REVOKED is not a terminal status. -/
theorem c7_counterexample :
    (findIdentity c7db 0).map (fun i => i.status) = some stRevoked ∧
    (findIdentity (stepOp (.suspendIdentity 0 "review" 2) c7db) 0).map
      (fun i => i.status) = some stSuspended ∧
    (findIdentity c7dbOut 0).map (fun i => i.status) = some stActive :=
  ⟨by decide, by decide, by decide⟩

/-- C7 (amended): suspend_identity succeeds on any existing identity
regardless of its current status — in particular on a REVOKED or
EXPIRED one, so those statuses are not terminal — and sets the status to
SUSPENDED; apart from suspend_identity and revoke_identity, no
operation moves an identity out of REVOKED or EXPIRED. -/
theorem c7_amended_revoked_expired_escapable_only_by_suspend_revoke
    (db : DB) :
    (∀ iid reason now i, findIdentity db iid = some i →
       ∃ db', suspend_identity iid reason now db = .ok (db', true) ∧
         ∀ j ∈ db'.identities, j.identity_id = iid → j.status = stSuspended) ∧
    (∀ op db' iid i, applyOp op db = .ok db' →
       (∀ j r n, op ≠ Op.suspendIdentity j r n) →
       (∀ j r n, op ≠ Op.revokeIdentity j r n) →
       findIdentity db iid = some i →
       (i.status = stRevoked ∨ i.status = stExpired) →
       ∃ i', findIdentity db' iid = some i' ∧ i'.status = i.status) := by
  constructor
  · intro iid reason now i hfind
    unfold suspend_identity
    rw [hfind]
    refine ⟨_, rfl, ?_⟩
    dsimp only [log_action]
    exact status_after_cond_set db.identities iid stSuspended
  · intro op db' iid i hok hnsusp hnrev hfind hst
    cases op with
    | createIdentity name email bio now =>
      simp only [applyOp, create_identity] at hok
      cases hdup : db.identities.any (fun j => j.holder_email == email) with
      | true => rw [hdup] at hok; exact absurd hok (by simp [Except.map])
      | false =>
        rw [hdup] at hok
        simp only [Bool.false_eq_true, reduceIte, Except.map,
          Except.ok.injEq] at hok
        refine ⟨i, ?_, rfl⟩
        rw [← hok]
        unfold findIdentity at hfind ⊢
        dsimp only [log_action]
        rw [List.find?_append, hfind]
        rfl
    | submitDocument iid2 t n c e now =>
      simp only [applyOp, submit_document] at hok
      cases hfind2 : findIdentity db iid2 with
      | none => rw [hfind2] at hok; exact absurd hok (by simp [Except.map])
      | some row =>
        rw [hfind2] at hok
        simp only [Except.map, Except.ok.injEq] at hok
        exact ⟨i, by rw [← hok]; exact hfind, rfl⟩
    | verifyDocument iid2 did now =>
      simp only [applyOp, verify_document] at hok
      cases hfind2 : findDocument db iid2 did with
      | none => rw [hfind2] at hok; exact absurd hok (by simp [Except.map])
      | some row =>
        rw [hfind2] at hok
        simp only [Except.map, Except.ok.injEq] at hok
        exact ⟨i, by rw [← hok]; exact hfind, rfl⟩
    | initiateKyc iid2 level now =>
      simp only [applyOp, initiate_kyc] at hok
      cases hfind2 : findIdentity db iid2 with
      | none => rw [hfind2] at hok; exact absurd hok (by simp [Except.map])
      | some row =>
        rw [hfind2] at hok
        simp only [Except.map, Except.ok.injEq] at hok
        exact ⟨i, by rw [← hok]; exact hfind, rfl⟩
    | processKyc rid now =>
      cases hpk : process_kyc rid now db with
      | error e =>
        simp only [applyOp, hpk, Except.map] at hok
        exact absurd hok (by simp)
      | ok p =>
        obtain ⟨p1, p2⟩ := p
        have hdb' : p1 = db' := by
          simp only [applyOp, hpk, Except.map, Except.ok.injEq] at hok
          exact hok
        subst hdb'
        unfold process_kyc at hpk
        cases hfind2 : findRequest db rid with
        | none => rw [hfind2] at hpk; exact absurd hpk (by simp)
        | some row =>
          rw [hfind2] at hpk
          dsimp only at hpk
          cases hstat : (row.status != kycPending) with
          | true => rw [hstat] at hpk; exact absurd hpk (by simp)
          | false =>
            rw [hstat] at hpk
            simp only [Bool.false_eq_true, reduceIte, Except.ok.injEq,
              Prod.mk.injEq] at hpk
            obtain ⟨h1, h2⟩ := hpk
            subst h1
            by_cases hA : ((decide (0 <
                (snapshotDocs db.documents row.documents_submitted).length) &&
                (snapshotDocs db.documents row.documents_submitted).all
                  fun d => d.verified) &&
                check_doc_requirements row.requested_level
                  (snapshotDocs db.documents row.documents_submitted)) = true
            · simp only [hA, reduceIte]
              refine ⟨if (i.identity_id == row.identity_id) = true then
                  { i with verification_level := row.requested_level } else i,
                ?_, ?_⟩
              · unfold findIdentity at hfind ⊢
                dsimp only [log_action]
                rw [find?_map_id_preserving _ (fun x => by split <;> rfl)]
                rw [hfind]
                rfl
              · split <;> rfl
            · simp only [hA, Bool.false_eq_true, reduceIte]
              exact ⟨i, by unfold findIdentity at hfind ⊢; exact hfind, rfl⟩
    | revokeIdentity iid2 reason now =>
      exact absurd rfl (hnrev iid2 reason now)
    | suspendIdentity iid2 reason now =>
      exact absurd rfl (hnsusp iid2 reason now)
    | reactivateIdentity iid2 now =>
      simp only [applyOp, reactivate_identity] at hok
      cases hfind2 : findIdentity db iid2 with
      | none => rw [hfind2] at hok; exact absurd hok (by simp [Except.map])
      | some row =>
        rw [hfind2] at hok
        dsimp only at hok
        cases hstat : (row.status != stSuspended) with
        | true => rw [hstat] at hok; exact absurd hok (by simp [Except.map])
        | false =>
          rw [hstat] at hok
          simp only [Bool.false_eq_true, reduceIte, Except.map,
            Except.ok.injEq] at hok
          have hsusp : row.status = stSuspended := by
            by_contra hne
            have h := bne_iff_ne.mpr hne
            rw [hstat] at h
            exact Bool.false_ne_true h
          refine ⟨if (i.identity_id == iid2) = true then
              { i with status := stActive } else i, ?_, ?_⟩
          · rw [← hok]
            unfold findIdentity at hfind ⊢
            dsimp only [log_action]
            rw [find?_map_id_preserving _ (fun x => by split <;> rfl)]
            rw [hfind]
            rfl
          · by_cases hm : (i.identity_id == iid2) = true
            · exfalso
              have hiid : i.identity_id = iid := by
                have := List.find?_some hfind
                exact beq_iff_eq.mp this
              have hji : iid2 = iid := by
                rw [← beq_iff_eq.mp hm, hiid]
              rw [hji] at hfind2
              unfold findIdentity at hfind hfind2
              rw [hfind] at hfind2
              obtain rfl : i = row := by
                injection hfind2
              rcases hst with h | h <;> rw [h] at hsusp <;>
                exact absurd hsusp (by decide)
            · rw [if_neg hm]
    | expireOld now =>
      simp only [applyOp, expire_old_identities, Except.ok.injEq] at hok
      refine ⟨if (decide (i.expires_at < now) && i.status == stActive) = true
          then { i with status := stExpired } else i, ?_, ?_⟩
      · rw [← hok]
        unfold findIdentity at hfind ⊢
        dsimp only
        rw [find?_map_id_preserving _ (fun x => by split <;> rfl)]
        rw [hfind]
        rfl
      · have hcond : (decide (i.expires_at < now) && (i.status == stActive)) =
            false := by
          rcases hst with h | h <;>
            simp [h, stRevoked, stExpired, stActive]
        rw [if_neg (by rw [hcond]; exact Bool.false_ne_true)]

/-- The revoked identity row stored in c7db. -/
def c7rev : IdentityR :=
  ⟨0, "Bob Ray", "bob@example.com", none, levelUnverified, stRevoked, 0, 1825⟩

/-- Witness for the amended C7: suspending the revoked identity of c7db
succeeds, and an expiry sweep leaves the revoked identity revoked. -/
theorem c7_amended_revoked_expired_escapable_witness :
    (∃ db', suspend_identity 0 "review" 2 c7db = .ok (db', true) ∧
       ∀ j ∈ db'.identities, j.identity_id = 0 → j.status = stSuspended) ∧
    (∃ i', findIdentity (stepOp (.expireOld 99999) c7db) 0 = some i' ∧
       i'.status = c7rev.status) :=
  ⟨(c7_amended_revoked_expired_escapable_only_by_suspend_revoke c7db).1
      0 "review" 2 c7rev (by decide),
   (c7_amended_revoked_expired_escapable_only_by_suspend_revoke c7db).2
      (.expireOld 99999) (stepOp (.expireOld 99999) c7db) 0 c7rev (by rfl)
      (fun j r n h => Op.noConfusion h) (fun j r n h => Op.noConfusion h)
      (by decide) (Or.inl rfl)⟩

/-- Scenario with one identity whose expiry (time 1825) has passed by
time 5000. -/
def c8db : DB := runOps [.createIdentity "Cal Poe" "cal@example.com" none 0]
  initDB

/-- The scenario of c8db after an expiry sweep at time 5000. -/
def c8dbOut : DB := stepOp (.expireOld 5000) c8db

/-- Counterexample to C8 as stated: the expiry sweep on c8db is a
mutating call — it changes the stored identity status to EXPIRED — yet
the source of expire_old_identities never calls _log_action, so the
audit log gains no entry instead of exactly one. -/
theorem c8_counterexample :
    applyOp (.expireOld 5000) c8db = .ok c8dbOut ∧
    c8dbOut ≠ c8db ∧
    (findIdentity c8dbOut 0).map (fun i => i.status) = some stExpired ∧
    c8dbOut.audit_log = c8db.audit_log :=
  ⟨by rfl, by decide, by decide, by decide⟩

/-- C8 (amended): every successful mutating call other than
expire_old_identities appends exactly one entry at the end of the audit
log, so entries appear in call order and no existing entry is modified
or deleted; expire_old_identities appends none. -/
theorem c8_audit_append_only_except_expire (op : Op) (db db' : DB)
    (hok : applyOp op db = .ok db') :
    ((∀ n, op ≠ Op.expireOld n) →
       ∃ e, db'.audit_log = db.audit_log ++ [e]) ∧
    (∀ n, op = Op.expireOld n → db'.audit_log = db.audit_log) := by
  constructor
  · intro hne
    cases op with
    | createIdentity name email bio now =>
      simp only [applyOp, create_identity] at hok
      cases hdup : db.identities.any (fun j => j.holder_email == email) with
      | true => rw [hdup] at hok; exact absurd hok (by simp [Except.map])
      | false =>
        rw [hdup] at hok
        simp only [Bool.false_eq_true, reduceIte, Except.map,
          Except.ok.injEq] at hok
        exact ⟨_, by rw [← hok]; rfl⟩
    | submitDocument iid t n c e now =>
      simp only [applyOp, submit_document] at hok
      cases hfind : findIdentity db iid with
      | none => rw [hfind] at hok; exact absurd hok (by simp [Except.map])
      | some row =>
        rw [hfind] at hok
        simp only [Except.map, Except.ok.injEq] at hok
        exact ⟨_, by rw [← hok]; rfl⟩
    | verifyDocument iid did now =>
      simp only [applyOp, verify_document] at hok
      cases hfind : findDocument db iid did with
      | none => rw [hfind] at hok; exact absurd hok (by simp [Except.map])
      | some row =>
        rw [hfind] at hok
        simp only [Except.map, Except.ok.injEq] at hok
        exact ⟨_, by rw [← hok]; rfl⟩
    | initiateKyc iid level now =>
      simp only [applyOp, initiate_kyc] at hok
      cases hfind : findIdentity db iid with
      | none => rw [hfind] at hok; exact absurd hok (by simp [Except.map])
      | some row =>
        rw [hfind] at hok
        simp only [Except.map, Except.ok.injEq] at hok
        exact ⟨_, by rw [← hok]; rfl⟩
    | processKyc rid now =>
      cases hpk : process_kyc rid now db with
      | error e =>
        simp only [applyOp, hpk, Except.map] at hok
        exact absurd hok (by simp)
      | ok p =>
        obtain ⟨p1, p2⟩ := p
        have hdb' : p1 = db' := by
          simp only [applyOp, hpk, Except.map, Except.ok.injEq] at hok
          exact hok
        subst hdb'
        unfold process_kyc at hpk
        cases hfind : findRequest db rid with
        | none => rw [hfind] at hpk; exact absurd hpk (by simp)
        | some row =>
          rw [hfind] at hpk
          dsimp only at hpk
          cases hstat : (row.status != kycPending) with
          | true => rw [hstat] at hpk; exact absurd hpk (by simp)
          | false =>
            rw [hstat] at hpk
            simp only [Bool.false_eq_true, reduceIte, Except.ok.injEq,
              Prod.mk.injEq] at hpk
            obtain ⟨h1, h2⟩ := hpk
            subst h1
            by_cases hA : ((decide (0 <
                (snapshotDocs db.documents row.documents_submitted).length) &&
                (snapshotDocs db.documents row.documents_submitted).all
                  fun d => d.verified) &&
                check_doc_requirements row.requested_level
                  (snapshotDocs db.documents row.documents_submitted)) = true
            · simp only [hA, reduceIte]
              exact ⟨_, rfl⟩
            · simp only [hA, Bool.false_eq_true, reduceIte]
              exact ⟨_, rfl⟩
    | revokeIdentity iid reason now =>
      simp only [applyOp, revoke_identity] at hok
      cases hfind : findIdentity db iid with
      | none => rw [hfind] at hok; exact absurd hok (by simp [Except.map])
      | some row =>
        rw [hfind] at hok
        simp only [Except.map, Except.ok.injEq] at hok
        exact ⟨_, by rw [← hok]; rfl⟩
    | suspendIdentity iid reason now =>
      simp only [applyOp, suspend_identity] at hok
      cases hfind : findIdentity db iid with
      | none => rw [hfind] at hok; exact absurd hok (by simp [Except.map])
      | some row =>
        rw [hfind] at hok
        simp only [Except.map, Except.ok.injEq] at hok
        exact ⟨_, by rw [← hok]; rfl⟩
    | reactivateIdentity iid now =>
      simp only [applyOp, reactivate_identity] at hok
      cases hfind : findIdentity db iid with
      | none => rw [hfind] at hok; exact absurd hok (by simp [Except.map])
      | some row =>
        rw [hfind] at hok
        dsimp only at hok
        cases hstat : (row.status != stSuspended) with
        | true => rw [hstat] at hok; exact absurd hok (by simp [Except.map])
        | false =>
          rw [hstat] at hok
          simp only [Bool.false_eq_true, reduceIte, Except.map,
            Except.ok.injEq] at hok
          exact ⟨_, by rw [← hok]; rfl⟩
    | expireOld n => exact absurd rfl (hne n)
  · intro n heq
    subst heq
    simp only [applyOp, expire_old_identities, Except.ok.injEq] at hok
    rw [← hok]

/-- Witness for the amended C8: creating the identity of c8db appended
exactly one entry, and the expiry sweep on c8db appended none. -/
theorem c8_audit_append_only_except_expire_witness :
    (∃ e, c8db.audit_log = (initDB : DB).audit_log ++ [e]) ∧
    c8dbOut.audit_log = c8db.audit_log :=
  ⟨(c8_audit_append_only_except_expire
      (.createIdentity "Cal Poe" "cal@example.com" none 0) initDB c8db
      (by rfl)).1 (fun n h => Op.noConfusion h),
   (c8_audit_append_only_except_expire (.expireOld 5000) c8db c8dbOut
      (by rfl)).2 5000 rfl⟩

/-- The scenario of wdb3 just before its KYC request is initiated. -/
def wdb3pre : DB := runOps
  [.createIdentity "Dave Brown" "dave@example.com" none 10,
   .submitDocument 0 docPassport "P999" "UK" "2029-01-01" 11,
   .verifyDocument 0 2 12]
  initDB

/-- Witness for C5: the request created on wdb3pre snapshots exactly the
verified document ids, and processing the request preserves every stored
snapshot. -/
theorem c5_snapshot_frozen_at_creation_witness :
    (wreq3.documents_submitted =
      (wdb3pre.documents.filter (fun d => d.identity_id == 0 &&
        d.verified)).map (fun d => d.doc_id)) ∧
    (∃ tail, snapshotsOf wdb4 = snapshotsOf wdb3 ++ tail) :=
  ⟨(c5_snapshot_frozen_at_creation wdb3pre).1 0 levelBasic 13 wdb3 wreq3
      (by rfl),
   (c5_snapshot_frozen_at_creation wdb3).2 (.processKyc 5 14) wdb4 (by rfl)⟩

end DI
